import Mathlib

/-!
Shallow embedding of `drivers/staging/android/lowmemorykiller.c`
(Samsung msm7x27 tree, with `SEC_ADJUST_LMK` defined).

The embedding models one invocation of `lowmem_shrink` as a pure function.
External collaborators are represented by explicit inputs and outputs:

* `PageState` holds the `global_page_state` counters read by the function.
* `Task` is one entry of the process enumeration (`for_each_process`), with
  the fields the scan reads: `PF_KTHREAD` flag, `TIF_MEMDIE` thread flag
  (pending death), `p->signal->oom_score_adj`, and `get_mm_rss(p->mm)`.
  `find_lock_task_mm` (lines 140-142 of the source) is part of the
  process-enumeration collaborator: a task for which it fails (no mm) is
  modelled as simply not appearing in the snapshot list, matching the
  spec's `ProcessSnapshotSource` abstraction.
* the mutable module state `lowmem_deathpending_timeout` is threaded as an
  input (`deathpendingTimeout`) and returned in the result record, and the
  side effects `send_sig(SIGKILL, ...)`, `set_tsk_thread_flag(..., TIF_MEMDIE)`
  and `compact_nodes(false)` are returned as observation fields.

Machine integers: `int` / `short` values are modelled as `Int` and the
`unsigned long` jiffies values as `Nat`.  No arithmetic in the claims
approaches the 32-bit bounds, so no wrap-around is modelled; in particular
`time_before_eq(a, b)` (wrap-safe `(long)(a - b) <= 0`) is modelled as
`a ≤ b` on un-wrapped monotonic ticks, matching the spec's `MonotonicTick`.
-/

namespace Lowmem

/-- `OOM_SCORE_ADJ_MAX` from the kernel header `include/linux/oom.h`
(outside this repository's extracted sources): the maximum
`/proc/<pid>/oom_score_adj` value, `1000`. -/
def OOM_SCORE_ADJ_MAX : Int := 1000

/-- `OOM_ADJUST_MAX` from the kernel header `include/linux/oom.h`
(outside this repository's extracted sources): the maximum legacy
`/proc/<pid>/oom_adj` value, `15`.  Note this is a different constant from
`OOM_SCORE_ADJ_MAX`. -/
def OOM_ADJUST_MAX : Int := 15

/-- `HZ`: jiffies per second (`CONFIG_HZ`, 100 on this msm7x27 tree).  The
exact value is immaterial to the claims; only `deadline = now + HZ`
matters. -/
def HZ : Nat := 100

/-- One process entry of the snapshot scanned by `for_each_process`. -/
structure Task where
  /-- `p->pid` (used only for logging in the source). -/
  pid : Nat
  /-- `p->signal->oom_score_adj`, a `short`. -/
  score : Int
  /-- `get_mm_rss(p->mm)` (`tasksize` in the source), an `int`. -/
  rss : Int
  /-- `tsk->flags & PF_KTHREAD`. -/
  isKThread : Bool
  /-- `test_tsk_thread_flag(p, TIF_MEMDIE)`: pending death. -/
  memdie : Bool
deriving DecidableEq, Repr

/-- The `global_page_state` counters read by `lowmem_shrink`. -/
structure PageState where
  nrFreePages : Int
  nrInactiveFile : Int
  nrActiveFile : Int
  nrActiveAnon : Int
  nrInactiveAnon : Int
deriving DecidableEq, Repr

/-- The module parameters: the `lowmem_adj[6]` and `lowmem_minfree[6]`
arrays with their element counts `lowmem_adj_size`, `lowmem_minfree_size`.
A C array slot beyond the list's length reads as `0`, matching the
zero-initialised tail of the static arrays (`List.getD _ _ 0`). -/
structure LowmemConfig where
  adj : List Int
  adjSize : Nat
  minfree : List Int
  minfreeSize : Nat
deriving Repr

/-- The source defaults (lines 45-58): `lowmem_adj = {0,1,6,12}` with
`lowmem_adj_size = 4`, `lowmem_minfree = {3*1024, 4*1024, 10*1024, 16*1024}`
with `lowmem_minfree_size = 4`. -/
def defaultConfig : LowmemConfig :=
  { adj := [0, 1, 6, 12], adjSize := 4,
    minfree := [3 * 1024, 4 * 1024, 10 * 1024, 16 * 1024], minfreeSize := 4 }

/-- `time_before_eq(now, deadline)` on un-wrapped monotonic ticks. -/
def timeBeforeEq (a b : Nat) : Bool := decide (a ≤ b)

/-- Lines 81, 92-95: `array_size = ARRAY_SIZE(lowmem_adj)` (= 6), clamped
down to `lowmem_adj_size` and then to `lowmem_minfree_size`. -/
def arraySizeOf (c : LowmemConfig) : Nat :=
  min (min 6 c.adjSize) c.minfreeSize

/-- The loop of lines 96-107: starting at index `i` with `fuel` iterations
left, return `lowmem_adj[i]` for the first `i` with
`other_free + other_file < lowmem_minfree[i]`; if the loop ends without a
`break`, `min_score_adj` keeps its initial value `OOM_SCORE_ADJ_MAX + 1`
(line 78). -/
def minScoreLoop (c : LowmemConfig) (freeCache : Int) : Nat → Nat → Int
  | _, 0 => OOM_SCORE_ADJ_MAX + 1
  | i, n + 1 =>
    if freeCache < c.minfree.getD i 0 then c.adj.getD i 0
    else minScoreLoop c freeCache (i + 1) n

/-- `min_score_adj` as computed by lines 78 and 92-107 from
`other_free` and `other_file`. -/
def minScoreAdjOf (c : LowmemConfig) (otherFree otherFile : Int) : Int :=
  minScoreLoop c (otherFree + otherFile) 0 (arraySizeOf c)

/-- `other_file` under `SEC_ADJUST_LMK` (lines 84-85):
`NR_INACTIVE_FILE + NR_ACTIVE_FILE`. -/
def otherFileOf (ps : PageState) : Int := ps.nrInactiveFile + ps.nrActiveFile

/-- `min_score_adj` computed from a `PageState` snapshot. -/
def minScoreOf (c : LowmemConfig) (ps : PageState) : Int :=
  minScoreAdjOf c ps.nrFreePages (otherFileOf ps)

/-- The effective threshold table of the spec's `ThresholdTable`:
`(minFreePages, minScore)` pairs for indices `0 ≤ i < arraySizeOf c`. -/
def effTable (c : LowmemConfig) : List (Int × Int) :=
  (List.range (arraySizeOf c)).map (fun i => (c.minfree.getD i 0, c.adj.getD i 0))

/-- The spec's `chooseMinScore`: the score of the first table entry whose
`minFreePages` strictly exceeds `freePages + fileCachePages`, `none` if no
entry matches. -/
def chooseMinScore (table : List (Int × Int)) (freeCache : Int) : Option Int :=
  (table.find? (fun e => decide (freeCache < e.1))).map (fun e => e.2)

/-- Outcome of the process scan of lines 132-171: either the early
`return 0` of lines 144-149 (`abort`), or the loop ran to completion with
the final `selected` task and its `selected_tasksize`. -/
inductive ScanOutcome where
  | abort
  | done (sel : Option (Task × Int))
deriving DecidableEq, Repr

/-- The `for_each_process` loop of lines 132-171.  `sel` carries
`(selected, selected_tasksize)` and `selScore` carries
`selected_oom_score_adj`; line 130 initialises `selScore` to
`min_score_adj`.  In order: the `PF_KTHREAD` skip (137-138), the
`TIF_MEMDIE` + `time_before_eq` abort (144-149), the `oom_score_adj <
min_score_adj` skip (151-154), the `tasksize <= 0` skip (157-158), and the
two `if (selected)` skip conditions (159-165), the second of which repeats
`oom_score_adj < selected_oom_score_adj` (not `==` as in mainline) and is
therefore unreachable. -/
def lowmemScan (minScoreAdj : Int) (deadline now : Nat) :
    List Task → Option (Task × Int) → Int → ScanOutcome
  | [], sel, _ => ScanOutcome.done sel
  | t :: rest, sel, selScore =>
    if t.isKThread then
      lowmemScan minScoreAdj deadline now rest sel selScore
    else if t.memdie && timeBeforeEq now deadline then
      ScanOutcome.abort
    else if t.score < minScoreAdj then
      lowmemScan minScoreAdj deadline now rest sel selScore
    else if t.rss ≤ 0 then
      lowmemScan minScoreAdj deadline now rest sel selScore
    else
      match sel with
      | some (s, selSize) =>
        if t.score < selScore then
          lowmemScan minScoreAdj deadline now rest (some (s, selSize)) selScore
        else if t.score < selScore ∧ t.rss ≤ selSize then
          lowmemScan minScoreAdj deadline now rest (some (s, selSize)) selScore
        else
          lowmemScan minScoreAdj deadline now rest (some (t, t.rss)) t.score
      | none => lowmemScan minScoreAdj deadline now rest (some (t, t.rss)) t.score

/-- `rem` as computed by lines 116-119:
`NR_ACTIVE_ANON + NR_ACTIVE_FILE + NR_INACTIVE_ANON + NR_INACTIVE_FILE`. -/
def totalReclaimable (ps : PageState) : Int :=
  ps.nrActiveAnon + ps.nrActiveFile + ps.nrInactiveAnon + ps.nrInactiveFile

/-- Observable result of one `lowmem_shrink` invocation: the return value
plus the state update and side effects. -/
structure ShrinkResult where
  /-- the `int` returned. -/
  ret : Int
  /-- `lowmem_deathpending_timeout` after the call. -/
  deathpendingTimeout : Nat
  /-- the task passed to `send_sig(SIGKILL, ...)` (line 177), if any. -/
  sigkillSentTo : Option Task
  /-- the task passed to `set_tsk_thread_flag(..., TIF_MEMDIE)` (line 178). -/
  memdieSetOn : Option Task
  /-- whether `compact_nodes(false)` was called (lines 188-189). -/
  compactionRequested : Bool
deriving DecidableEq, Repr

/-- `lowmem_shrink` (lines 71-191), `SEC_ADJUST_LMK` branches taken.
Inputs beyond the C parameters: the module parameters `c`, the page-state
counters `ps`, the process snapshot `tasks`, the current
`lowmem_deathpending_timeout`, and the current `jiffies` value `now`.
Control flow: compute `min_score_adj` (92-107); early `return 0` when it
equals `OOM_ADJUST_MAX + 1` (108-111); compute `rem` (116-119); `return
rem` when `nr_to_scan <= 0` (120-129); otherwise scan (132-171) and either
abort with 0, kill the selected task (172-180, 188-189) returning
`rem - selected_tasksize`, or return `-1` (181-184). -/
def lowmem_shrink (c : LowmemConfig) (ps : PageState) (tasks : List Task)
    (deathpendingTimeout : Nat) (now : Nat) (nrToScan : Int) : ShrinkResult :=
  let minScoreAdj := minScoreOf c ps
  if minScoreAdj = OOM_ADJUST_MAX + 1 then
    { ret := 0, deathpendingTimeout := deathpendingTimeout,
      sigkillSentTo := none, memdieSetOn := none, compactionRequested := false }
  else
    let rem := totalReclaimable ps
    if nrToScan ≤ 0 then
      { ret := rem, deathpendingTimeout := deathpendingTimeout,
        sigkillSentTo := none, memdieSetOn := none, compactionRequested := false }
    else
      match lowmemScan minScoreAdj deathpendingTimeout now tasks none minScoreAdj with
      | ScanOutcome.abort =>
        { ret := 0, deathpendingTimeout := deathpendingTimeout,
          sigkillSentTo := none, memdieSetOn := none, compactionRequested := false }
      | ScanOutcome.done none =>
        { ret := -1, deathpendingTimeout := deathpendingTimeout,
          sigkillSentTo := none, memdieSetOn := none, compactionRequested := false }
      | ScanOutcome.done (some (victim, tasksize)) =>
        { ret := rem - tasksize, deathpendingTimeout := now + HZ,
          sigkillSentTo := some victim, memdieSetOn := some victim,
          compactionRequested := true }

/-- The loop of lines 96-107 computes exactly a first-match search over the
table entries from index `i` on. -/
lemma minScoreLoop_eq_find (c : LowmemConfig) (fc : Int) :
    ∀ (n i : Nat),
      minScoreLoop c fc i n =
        match ((List.range' i n).map
            (fun j => (c.minfree.getD j 0, c.adj.getD j 0))).find?
            (fun e => decide (fc < e.1)) with
        | some e => e.2
        | none => OOM_SCORE_ADJ_MAX + 1 := by
  intro n
  induction n with
  | zero => intro i; simp [minScoreLoop]
  | succ n ih =>
    intro i
    rw [List.range'_succ]
    simp only [List.map_cons, List.find?_cons]
    cases hd : decide (fc < c.minfree.getD i 0) with
    | true =>
      have h : fc < c.minfree.getD i 0 := of_decide_eq_true hd
      simp only [minScoreLoop, if_pos h, hd]
    | false =>
      have h : ¬ fc < c.minfree.getD i 0 := of_decide_eq_false hd
      simp only [minScoreLoop, if_neg h, hd]
      exact ih (i + 1)

/-- If the cooldown is active and some task of the snapshot is a
non-kernel-thread pending-death task, the scan aborts, whatever the
accumulator state. -/
lemma scan_abort_of_trigger (m : Int) (dl now : Nat)
    (h : timeBeforeEq now dl = true) :
    ∀ (tasks : List Task),
      (∃ t ∈ tasks, t.isKThread = false ∧ t.memdie = true) →
      ∀ sel selScore, lowmemScan m dl now tasks sel selScore = ScanOutcome.abort := by
  intro tasks
  induction tasks with
  | nil => rintro ⟨t, ht, _⟩; simp at ht
  | cons t rest ih =>
    rintro ⟨u, hu, hk, hm⟩ sel selScore
    rcases List.mem_cons.mp hu with rfl | hu
    · simp [lowmemScan, hk, hm, h]
    · cases hkt : t.isKThread with
      | true => simpa [lowmemScan, hkt] using ih ⟨u, hu, hk, hm⟩ sel selScore
      | false =>
        cases hmd : t.memdie with
        | true => simp [lowmemScan, hkt, hmd, h]
        | false =>
          simp only [lowmemScan, hkt, hmd, Bool.false_and, Bool.false_eq_true,
            if_false]
          repeat' first
            | exact ih ⟨u, hu, hk, hm⟩ _ _
            | split

/-- Invariant of the scan loop: a task stored in the accumulator has passed
the kernel-thread, score and resident-size filters, and is stored together
with its own resident size.  Hence this holds of the final selection. -/
lemma scan_done_some_inv (m : Int) (dl now : Nat) :
    ∀ (tasks : List Task) (sel : Option (Task × Int)) (selScore : Int)
      (v : Task) (z : Int),
      (∀ s zz, sel = some (s, zz) →
        s.isKThread = false ∧ m ≤ s.score ∧ 0 < s.rss ∧ zz = s.rss) →
      lowmemScan m dl now tasks sel selScore = ScanOutcome.done (some (v, z)) →
      v.isKThread = false ∧ m ≤ v.score ∧ 0 < v.rss ∧ z = v.rss := by
  intro tasks
  induction tasks with
  | nil =>
    intro sel selScore v z hsel hres
    simp only [lowmemScan, ScanOutcome.done.injEq] at hres
    exact hsel v z hres
  | cons t rest ih =>
    intro sel selScore v z hsel hres
    cases hkt : t.isKThread with
    | true =>
      simp only [lowmemScan, hkt, if_true] at hres
      exact ih sel selScore v z hsel hres
    | false =>
      have hcond : (t.memdie && timeBeforeEq now dl) = true ∨
          (t.memdie && timeBeforeEq now dl) = false := by
        cases t.memdie && timeBeforeEq now dl <;> simp
      rcases hcond with hcond | hcond
      · simp [lowmemScan, hkt, hcond] at hres
      · simp only [lowmemScan, hkt, hcond, Bool.false_eq_true, if_false] at hres
        by_cases hsc : t.score < m
        · simp only [hsc, if_true] at hres
          exact ih sel selScore v z hsel hres
        · simp only [hsc, if_false] at hres
          by_cases hrs : t.rss ≤ 0
          · simp only [hrs, if_true] at hres
            exact ih sel selScore v z hsel hres
          · simp only [hrs, if_false] at hres
            have hnew : ∀ s zz, (some (t, t.rss) : Option (Task × Int)) = some (s, zz) →
                s.isKThread = false ∧ m ≤ s.score ∧ 0 < s.rss ∧ zz = s.rss := by
              intro s zz hszz
              injection hszz with hszz
              injection hszz with h1 h2
              subst h1; subst h2
              exact ⟨hkt, not_lt.mp hsc, not_le.mp hrs, rfl⟩
            cases sel with
            | none => exact ih _ _ v z hnew hres
            | some p =>
              obtain ⟨s, zz⟩ := p
              by_cases hlt : t.score < selScore
              · simp only [hlt, if_true] at hres
                exact ih _ _ v z hsel hres
              · simp only [hlt, if_false, false_and] at hres
                exact ih _ _ v z hnew hres

/-- The spec's eligibility filter for victim candidates (steps 1, 3, 4 of
§4.3): not a kernel thread, score at least `min_score_adj`, positive
resident size. -/
def eligible (m : Int) (t : Task) : Bool :=
  !t.isKThread && decide (m ≤ t.score) && decide (0 < t.rss)

/-- The selection fold of lines 159-168, restricted to the abort-free case
and expressed over the eligibility filter: a candidate replaces the current
best exactly when its score is not below the best's score. -/
def selectVictim (m : Int) : List Task → Option Task → Option Task
  | [], sel => sel
  | t :: rest, sel =>
    if eligible m t then
      match sel with
      | none => selectVictim m rest (some t)
      | some b =>
        if t.score < b.score then selectVictim m rest (some b)
        else selectVictim m rest (some t)
    else selectVictim m rest sel

/-- In the abort-free case the scan loop computes `selectVictim`:
the accumulator coupling is `sel = some s ↦ (some (s, s.rss), s.score)` and
`none ↦ (none, min_score_adj)` (line 130). -/
lemma scan_eq_selectVictim (m : Int) (dl now : Nat) :
    ∀ (tasks : List Task),
      (∀ t ∈ tasks, t.isKThread = false → t.memdie = true →
        timeBeforeEq now dl = false) →
      ∀ (sel : Option Task),
        lowmemScan m dl now tasks (Option.map (fun s => (s, s.rss)) sel)
            (match sel with | some s => s.score | none => m)
          = ScanOutcome.done
              (Option.map (fun v => (v, v.rss)) (selectVictim m tasks sel)) := by
  intro tasks
  induction tasks with
  | nil => intro _ sel; simp [lowmemScan, selectVictim]
  | cons t rest ih =>
    intro habort sel
    have habort' : ∀ u ∈ rest, u.isKThread = false → u.memdie = true →
        timeBeforeEq now dl = false := by
      intro u hu
      exact habort u (List.mem_cons_of_mem t hu)
    cases hkt : t.isKThread with
    | true =>
      have helig : eligible m t = false := by simp [eligible, hkt]
      simpa [lowmemScan, selectVictim, hkt, helig] using ih habort' sel
    | false =>
      have hcond : (t.memdie && timeBeforeEq now dl) = false := by
        cases hmd : t.memdie with
        | false => simp
        | true => simp [habort t (List.mem_cons_self t rest) hkt hmd]
      by_cases hsc : t.score < m
      · have helig : eligible m t = false := by
          simp [eligible, decide_eq_false (not_le.mpr hsc)]
        simpa [lowmemScan, selectVictim, hkt, hcond, hsc, helig] using
          ih habort' sel
      · by_cases hrs : t.rss ≤ 0
        · have helig : eligible m t = false := by
            simp [eligible, decide_eq_false (not_lt.mpr hrs)]
          simpa [lowmemScan, selectVictim, hkt, hcond, hsc, hrs, helig] using
            ih habort' sel
        · have helig : eligible m t = true := by
            simp [eligible, hkt, not_lt.mp hsc, not_le.mp hrs]
          cases sel with
          | none =>
            simpa [lowmemScan, selectVictim, hkt, hcond, hsc, hrs, helig] using
              ih habort' (some t)
          | some b =>
            by_cases hlt : t.score < b.score
            · simpa [lowmemScan, selectVictim, hkt, hcond, hsc, hrs, helig,
                hlt] using ih habort' (some b)
            · simpa [lowmemScan, selectVictim, hkt, hcond, hsc, hrs, helig,
                hlt] using ih habort' (some t)

/-- Characterisation of `selectVictim` run from a non-empty accumulator:
either the accumulator survives (every later eligible task scores strictly
below it), or the result is an eligible task of the list scoring at least
the accumulator, with every eligible task before it scoring no higher and
every eligible task after it scoring strictly lower. -/
lemma selectVictim_some_spec (m : Int) :
    ∀ (tasks : List Task) (b v : Task),
      selectVictim m tasks (some b) = some v →
      (v = b ∧ ∀ u ∈ tasks, eligible m u = true → u.score < b.score) ∨
      (∃ l₁ l₂, tasks = l₁ ++ v :: l₂ ∧ eligible m v = true ∧
        b.score ≤ v.score ∧
        (∀ u ∈ l₁, eligible m u = true → u.score ≤ v.score) ∧
        (∀ u ∈ l₂, eligible m u = true → u.score < v.score)) := by
  intro tasks
  induction tasks with
  | nil =>
    intro b v hres
    simp only [selectVictim, Option.some.injEq] at hres
    exact Or.inl ⟨hres.symm, by simp⟩
  | cons t rest ih =>
    intro b v hres
    by_cases helig : eligible m t = true
    · simp only [selectVictim, helig, if_true] at hres
      by_cases hlt : t.score < b.score
      · simp only [hlt, if_true] at hres
        rcases ih b v hres with ⟨rfl, hall⟩ | ⟨l₁, l₂, heq, hv, hbv, h₁, h₂⟩
        · refine Or.inl ⟨rfl, ?_⟩
          intro u hu hue
          rcases List.mem_cons.mp hu with rfl | hu
          · exact hlt
          · exact hall u hu hue
        · refine Or.inr ⟨t :: l₁, l₂, by simp [heq], hv, hbv, ?_, h₂⟩
          intro u hu hue
          rcases List.mem_cons.mp hu with rfl | hu
          · exact le_of_lt (lt_of_lt_of_le hlt hbv)
          · exact h₁ u hu hue
      · simp only [hlt, if_false] at hres
        have hble : b.score ≤ t.score := not_lt.mp hlt
        rcases ih t v hres with ⟨rfl, hall⟩ | ⟨l₁, l₂, heq, hv, htv, h₁, h₂⟩
        · exact Or.inr ⟨[], rest, rfl, helig, hble, by simp, hall⟩
        · refine Or.inr ⟨t :: l₁, l₂, by simp [heq], hv,
            le_trans hble htv, ?_, h₂⟩
          intro u hu hue
          rcases List.mem_cons.mp hu with rfl | hu
          · exact htv
          · exact h₁ u hu hue
    · simp only [selectVictim, helig, if_false] at hres
      rcases ih b v hres with ⟨rfl, hall⟩ | ⟨l₁, l₂, heq, hv, hbv, h₁, h₂⟩
      · refine Or.inl ⟨rfl, ?_⟩
        intro u hu hue
        rcases List.mem_cons.mp hu with rfl | hu
        · exact absurd hue helig
        · exact hall u hu hue
      · refine Or.inr ⟨t :: l₁, l₂, by simp [heq], hv, hbv, ?_, h₂⟩
        intro u hu hue
        rcases List.mem_cons.mp hu with rfl | hu
        · exact absurd hue helig
        · exact h₁ u hu hue

/-- Characterisation of `selectVictim` run from the empty accumulator: the
result is an eligible task of the list, every eligible task before it
scores no higher, and every eligible task after it scores strictly lower
(the *latest* maximal-score candidate). -/
lemma selectVictim_none_spec (m : Int) :
    ∀ (tasks : List Task) (v : Task),
      selectVictim m tasks none = some v →
      ∃ l₁ l₂, tasks = l₁ ++ v :: l₂ ∧ eligible m v = true ∧
        (∀ u ∈ l₁, eligible m u = true → u.score ≤ v.score) ∧
        (∀ u ∈ l₂, eligible m u = true → u.score < v.score) := by
  intro tasks
  induction tasks with
  | nil => intro v hres; simp [selectVictim] at hres
  | cons t rest ih =>
    intro v hres
    by_cases helig : eligible m t = true
    · simp only [selectVictim, helig, if_true] at hres
      rcases selectVictim_some_spec m rest t v hres with
        ⟨rfl, hall⟩ | ⟨l₁, l₂, heq, hv, htv, h₁, h₂⟩
      · exact ⟨[], rest, rfl, helig, by simp, hall⟩
      · refine ⟨t :: l₁, l₂, by simp [heq], hv, ?_, h₂⟩
        intro u hu hue
        rcases List.mem_cons.mp hu with rfl | hu
        · exact htv
        · exact h₁ u hu hue
    · simp only [selectVictim, helig, if_false] at hres
      obtain ⟨l₁, l₂, heq, hv, h₁, h₂⟩ := ih v hres
      refine ⟨t :: l₁, l₂, by simp [heq], hv, ?_, h₂⟩
      intro u hu hue
      rcases List.mem_cons.mp hu with rfl | hu
      · exact absurd hue helig
      · exact h₁ u hu hue

/-! ### Concrete fixtures for counterexamples and witnesses -/

/-- A page state below the smallest default threshold:
`free + file = 1000 < 3072`, so `min_score_adj = lowmem_adj[0] = 0`;
`totalReclaimable = 500`. -/
def psPressure : PageState :=
  { nrFreePages := 1000, nrInactiveFile := 0, nrActiveFile := 0,
    nrActiveAnon := 300, nrInactiveAnon := 200 }

/-- A page state above every default threshold:
`free + file = 20000 ≥ 16384`, so no table entry matches. -/
def psNoPressure : PageState :=
  { nrFreePages := 20000, nrInactiveFile := 0, nrActiveFile := 0,
    nrActiveAnon := 300, nrInactiveAnon := 200 }

/-- First of two equal-score candidates (resident size 100). -/
def taskA : Task :=
  { pid := 1, score := 8, rss := 100, isKThread := false, memdie := false }

/-- Second of two equal-score candidates (resident size 500). -/
def taskB : Task :=
  { pid := 2, score := 8, rss := 500, isKThread := false, memdie := false }

/-- A pending-death task that would itself be an eligible victim. -/
def taskMemdie : Task :=
  { pid := 7, score := 3, rss := 50, isKThread := false, memdie := true }

/-- A pending-death task that could never be a victim: score below any
non-negative `min_score_adj` and zero resident size. -/
def taskMemdieIneligible : Task :=
  { pid := 9, score := -5, rss := 0, isKThread := false, memdie := true }

/-- A pending-death task with a high score and positive resident size. -/
def taskMemdieEligible : Task :=
  { pid := 4, score := 6, rss := 80, isKThread := false, memdie := true }

/-! ### Claim theorems -/

/-- Claim C1: the threshold check of lines 92-107 scans the effective table
(of size `min(lowmem_adj_size, lowmem_minfree_size, 6)`) in order from
index 0 and yields the score of the first entry whose `minFreePages`
strictly exceeds `freePages + fileCachePages` (`List.find?` returns the
first match); when `free + cache` is at or above every configured
threshold it yields no score, and `min_score_adj` keeps its sentinel value
`OOM_SCORE_ADJ_MAX + 1`. -/
theorem threshold_check_first_match (c : LowmemConfig) (otherFree otherFile : Int) :
    (minScoreAdjOf c otherFree otherFile =
      match chooseMinScore (effTable c) (otherFree + otherFile) with
      | some a => a
      | none => OOM_SCORE_ADJ_MAX + 1) ∧
    (chooseMinScore (effTable c) (otherFree + otherFile) = none ↔
      ∀ e ∈ effTable c, e.1 ≤ otherFree + otherFile) := by
  constructor
  · unfold minScoreAdjOf effTable chooseMinScore
    rw [List.range_eq_range', minScoreLoop_eq_find]
    cases hf : List.find? (fun e => decide (otherFree + otherFile < e.1))
        ((List.range' 0 (arraySizeOf c)).map
          (fun i => (c.minfree.getD i 0, c.adj.getD i 0))) with
    | none => simp [hf]
    | some e => simp [hf]
  · simp [chooseMinScore, List.find?_eq_none, not_lt]

/-- Claim C2 (code bug): when no configured threshold matches,
`min_score_adj` keeps `OOM_SCORE_ADJ_MAX + 1 = 1001`, but the early-return
guard of line 109 tests `OOM_ADJUST_MAX + 1 = 16`, so it never fires: with
the default configuration and `free + file = 20000` above every threshold,
a `nr_to_scan = 1` call scans anyway and returns `-1`, and a query call
returns the full reclaimable total — neither returns `0` as the spec
requires. -/
theorem no_threshold_match_scan_still_runs :
    chooseMinScore (effTable defaultConfig)
        (psNoPressure.nrFreePages + otherFileOf psNoPressure) = none ∧
    minScoreOf defaultConfig psNoPressure = OOM_SCORE_ADJ_MAX + 1 ∧
    lowmem_shrink defaultConfig psNoPressure [] 0 5 1 =
      { ret := -1, deathpendingTimeout := 0, sigkillSentTo := none,
        memdieSetOn := none, compactionRequested := false } ∧
    lowmem_shrink defaultConfig psNoPressure [] 0 5 0 =
      { ret := totalReclaimable psNoPressure, deathpendingTimeout := 0,
        sigkillSentTo := none, memdieSetOn := none,
        compactionRequested := false } ∧
    totalReclaimable psNoPressure ≠ 0 := by decide

/-- Claim C3, counterexample: `taskA` and `taskB` both survive filtering
with the same maximal score 8, yet the selector returns `taskB`, the
*latest* in iteration order, not the earliest: an equal-score candidate
replaces the current best because both skip conditions of lines 159-165
use a strict `<`. -/
theorem equal_score_latest_wins_cex :
    eligible 0 taskA = true ∧ eligible 0 taskB = true ∧
    taskA.score = taskB.score ∧ taskB ≠ taskA ∧
    lowmemScan 0 0 5 [taskA, taskB] none 0 =
      ScanOutcome.done (some (taskB, 500)) := by decide

/-- Claim C3 (amended): in an abort-free scan the selected victim is an
eligible task; every eligible task *before* it scores no higher and every
eligible task *after* it scores strictly lower — i.e. among equal maximal
scores the **latest** candidate in iteration order wins.  Resident size
never influences the choice: it appears in no condition beyond the
`residentPages > 0` filter (the size comparison of lines 162-164 sits
under an unsatisfiable guard). -/
theorem victim_is_latest_max_score (m : Int) (dl now : Nat)
    (tasks : List Task) (v : Task) (z : Int)
    (habort : ∀ t ∈ tasks, t.isKThread = false → t.memdie = true →
      timeBeforeEq now dl = false)
    (hres : lowmemScan m dl now tasks none m = ScanOutcome.done (some (v, z))) :
    z = v.rss ∧
    ∃ l₁ l₂, tasks = l₁ ++ v :: l₂ ∧ eligible m v = true ∧
      (∀ u ∈ l₁, eligible m u = true → u.score ≤ v.score) ∧
      (∀ u ∈ l₂, eligible m u = true → u.score < v.score) := by
  have h := scan_eq_selectVictim m dl now tasks habort none
  simp only [Option.map_none'] at h
  rw [hres] at h
  cases hsel : selectVictim m tasks none with
  | none => rw [hsel] at h; simp at h
  | some w =>
    rw [hsel] at h
    simp only [Option.map_some', ScanOutcome.done.injEq, Option.some.injEq,
      Prod.mk.injEq] at h
    obtain ⟨hvw, hz⟩ := h
    subst hvw
    exact ⟨hz, selectVictim_none_spec m tasks v hsel⟩

/-- Witness for the amended C3 at the counterexample input. -/
theorem victim_is_latest_max_score_witness :
    (500 : Int) = taskB.rss ∧
    ∃ l₁ l₂, [taskA, taskB] = l₁ ++ taskB :: l₂ ∧ eligible 0 taskB = true ∧
      (∀ u ∈ l₁, eligible 0 u = true → u.score ≤ taskB.score) ∧
      (∀ u ∈ l₂, eligible 0 u = true → u.score < taskB.score) :=
  victim_is_latest_max_score 0 0 5 [taskA, taskB] taskB 500
    (by decide) (by decide)

/-- Claim C4: with `nr_to_scan > 0`, encountering any non-kernel-thread
pending-death task while `now` is at or before the stored cooldown
deadline makes the whole invocation return `0` with the deadline
unchanged and no kill issued — even when tasks after it (in `l₂`) would be
perfectly eligible victims, so it does not merely skip that candidate. -/
theorem pending_death_aborts_scan (c : LowmemConfig) (ps : PageState)
    (l₁ l₂ : List Task) (t : Task) (timeout now : Nat) (nrToScan : Int)
    (hn : 0 < nrToScan) (hk : t.isKThread = false) (hm : t.memdie = true)
    (ht : timeBeforeEq now timeout = true) :
    lowmem_shrink c ps (l₁ ++ t :: l₂) timeout now nrToScan =
      { ret := 0, deathpendingTimeout := timeout, sigkillSentTo := none,
        memdieSetOn := none, compactionRequested := false } := by
  unfold lowmem_shrink
  by_cases hg : minScoreOf c ps = OOM_ADJUST_MAX + 1
  · simp [hg]
  · have habort := scan_abort_of_trigger (minScoreOf c ps) timeout now ht
      (l₁ ++ t :: l₂) ⟨t, by simp, hk, hm⟩ none (minScoreOf c ps)
    simp [hg, not_le.mpr hn, habort]

/-- Witness for C4: an eligible victim follows the pending-death task, yet
the call returns 0 and leaves the deadline at 100. -/
theorem pending_death_aborts_scan_witness :
    lowmem_shrink defaultConfig psPressure ([] ++ taskMemdie :: [taskA])
        100 90 1 =
      { ret := 0, deathpendingTimeout := 100, sigkillSentTo := none,
        memdieSetOn := none, compactionRequested := false } :=
  pending_death_aborts_scan defaultConfig psPressure [] [taskA] taskMemdie
    100 90 1 (by decide) (by decide) (by decide) (by decide)

/-- Claim C5: when `nr_to_scan > 0` and the scan selects a victim, the
cooldown deadline becomes `now + HZ` (line 176), SIGKILL is sent to the
victim (177), the victim is marked `TIF_MEMDIE` (178), compaction is
requested (188-189), and the return value is exactly
`totalReclaimable - victim.residentPages` (179). -/
theorem kill_arms_cooldown_and_adjusts_reclaim (c : LowmemConfig)
    (ps : PageState) (tasks : List Task) (timeout now : Nat) (nrToScan : Int)
    (v : Task) (z : Int)
    (hn : 0 < nrToScan) (hg : minScoreOf c ps ≠ OOM_ADJUST_MAX + 1)
    (hres : lowmemScan (minScoreOf c ps) timeout now tasks none
      (minScoreOf c ps) = ScanOutcome.done (some (v, z))) :
    lowmem_shrink c ps tasks timeout now nrToScan =
      { ret := totalReclaimable ps - v.rss, deathpendingTimeout := now + HZ,
        sigkillSentTo := some v, memdieSetOn := some v,
        compactionRequested := true } := by
  have hz := (scan_done_some_inv (minScoreOf c ps) timeout now tasks none
      (minScoreOf c ps) v z (by intro s zz h; cases h) hres).2.2.2
  unfold lowmem_shrink
  simp [hg, not_le.mpr hn, hres, hz]

/-- Witness for C5 at a concrete kill. -/
theorem kill_arms_cooldown_and_adjusts_reclaim_witness :
    lowmem_shrink defaultConfig psPressure [taskA] 0 5 1 =
      { ret := totalReclaimable psPressure - taskA.rss,
        deathpendingTimeout := 5 + HZ, sigkillSentTo := some taskA,
        memdieSetOn := some taskA, compactionRequested := true } :=
  kill_arms_cooldown_and_adjusts_reclaim defaultConfig psPressure [taskA]
    0 5 1 taskA 100 (by decide) (by decide) (by decide)

/-- Claim C6: with `nr_to_scan > 0`, a matched threshold, and a scan that
completes without abort selecting nobody, the call returns the sentinel
`-1` (lines 181-184), distinct from the `0` of no-pressure and abort. -/
theorem no_victim_returns_sentinel (c : LowmemConfig) (ps : PageState)
    (tasks : List Task) (timeout now : Nat) (nrToScan m : Int)
    (hn : 0 < nrToScan) (hm : minScoreOf c ps = m)
    (hmatch : chooseMinScore (effTable c)
      (ps.nrFreePages + otherFileOf ps) = some m)
    (hg : m ≠ OOM_ADJUST_MAX + 1)
    (hres : lowmemScan m timeout now tasks none m = ScanOutcome.done none) :
    lowmem_shrink c ps tasks timeout now nrToScan =
      { ret := -1, deathpendingTimeout := timeout, sigkillSentTo := none,
        memdieSetOn := none, compactionRequested := false } := by
  subst hm
  unfold lowmem_shrink
  simp [hg, not_le.mpr hn, hres]

/-- Witness for C6: pressure below the smallest threshold, empty process
snapshot, return is -1. -/
theorem no_victim_returns_sentinel_witness :
    lowmem_shrink defaultConfig psPressure [] 0 5 1 =
      { ret := -1, deathpendingTimeout := 0, sigkillSentTo := none,
        memdieSetOn := none, compactionRequested := false } :=
  no_victim_returns_sentinel defaultConfig psPressure [] 0 5 1 0
    (by decide) (by decide) (by decide) (by decide) (by decide)

/-- A configuration whose single entry carries the score
`OOM_ADJUST_MAX + 1 = 16`: a matched threshold then makes `min_score_adj`
equal the value tested by the line-109 guard. -/
def cfg16 : LowmemConfig :=
  { adj := [16], adjSize := 1, minfree := [3 * 1024], minfreeSize := 1 }

/-- Claim C7, counterexample: with `adj = [16]`, `minfree = [3072]` and
`free + cache = 1000`, a threshold genuinely matches
(`chooseMinScore = some 16`), yet the query-mode call returns `0`, not
`totalReclaimable` (= 500): the matched score equals `OOM_ADJUST_MAX + 1`,
so the early-return guard of line 109 fires before the query path of
lines 120-129 is reached. -/
theorem matched_threshold_16_query_returns_zero_cex :
    chooseMinScore (effTable cfg16)
        (psPressure.nrFreePages + otherFileOf psPressure)
      = some (OOM_ADJUST_MAX + 1) ∧
    (lowmem_shrink cfg16 psPressure [taskA] 0 5 0).ret = 0 ∧
    totalReclaimable psPressure ≠ 0 ∧
    (lowmem_shrink cfg16 psPressure [taskA] 0 5 0).ret
      ≠ totalReclaimable psPressure := by decide

/-- Claim C7 (amended): with `nr_to_scan <= 0` the call leaves the cooldown deadline
unchanged, issues no kill, sets no pending-death flag, requests no
compaction, its result does not depend on the process snapshot at all (no
scan), and — whenever execution passes the line-109 guard, in particular
whenever a threshold other than the score 16 matched — it returns
`totalReclaimable`, the sum of the active/inactive anonymous/file page
counts (lines 116-129). -/
theorem query_mode_is_pure (c : LowmemConfig) (ps : PageState)
    (tasks : List Task) (timeout now : Nat) (nrToScan : Int)
    (hn : nrToScan ≤ 0) :
    (lowmem_shrink c ps tasks timeout now nrToScan).deathpendingTimeout
        = timeout ∧
    (lowmem_shrink c ps tasks timeout now nrToScan).sigkillSentTo = none ∧
    (lowmem_shrink c ps tasks timeout now nrToScan).memdieSetOn = none ∧
    (lowmem_shrink c ps tasks timeout now nrToScan).compactionRequested
        = false ∧
    lowmem_shrink c ps tasks timeout now nrToScan =
      lowmem_shrink c ps [] timeout now nrToScan ∧
    (minScoreOf c ps ≠ OOM_ADJUST_MAX + 1 →
      (lowmem_shrink c ps tasks timeout now nrToScan).ret
        = totalReclaimable ps) := by
  unfold lowmem_shrink
  by_cases hg : minScoreOf c ps = OOM_ADJUST_MAX + 1 <;> simp [hg, hn]

/-- Witness for C7 at a query-mode call with a non-empty snapshot. -/
theorem query_mode_is_pure_witness :
    (lowmem_shrink defaultConfig psPressure [taskA] 0 5 0).deathpendingTimeout
        = 0 ∧
    (lowmem_shrink defaultConfig psPressure [taskA] 0 5 0).sigkillSentTo
        = none ∧
    (lowmem_shrink defaultConfig psPressure [taskA] 0 5 0).memdieSetOn
        = none ∧
    (lowmem_shrink defaultConfig psPressure [taskA] 0 5 0).compactionRequested
        = false ∧
    lowmem_shrink defaultConfig psPressure [taskA] 0 5 0 =
      lowmem_shrink defaultConfig psPressure [] 0 5 0 ∧
    (minScoreOf defaultConfig psPressure ≠ OOM_ADJUST_MAX + 1 →
      (lowmem_shrink defaultConfig psPressure [taskA] 0 5 0).ret
        = totalReclaimable psPressure) :=
  query_mode_is_pure defaultConfig psPressure [taskA] 0 5 0 (by decide)

/-- Claim C8: any victim produced by the scan passed every filter: it is
not a kernel thread (lines 137-138), its score is at least
`min_score_adj` (151-154), its resident size is positive (157-158), and
the recorded `selected_tasksize` is its own resident size. -/
theorem victim_passes_filters (m : Int) (dl now : Nat) (tasks : List Task)
    (v : Task) (z : Int)
    (hres : lowmemScan m dl now tasks none m = ScanOutcome.done (some (v, z))) :
    v.isKThread = false ∧ m ≤ v.score ∧ 0 < v.rss ∧ z = v.rss :=
  scan_done_some_inv m dl now tasks none m v z (by intro s zz h; cases h) hres

/-- Witness for C8 at a concrete selection. -/
theorem victim_passes_filters_witness :
    taskA.isKThread = false ∧ (0 : Int) ≤ taskA.score ∧ 0 < taskA.rss ∧
      (100 : Int) = taskA.rss :=
  victim_passes_filters 0 0 5 [taskA] taskA 100 (by decide)

/-- Claim C9: the pending-death abort check (lines 144-149) runs before the
score filter (151) and the resident-size filter (157): during an active
cooldown a non-kernel-thread pending-death task aborts the whole
invocation (return 0) even when its score is below `min_score_adj` or its
resident size is 0, i.e. even though it could never itself be selected. -/
theorem abort_precedes_score_and_size_filters (c : LowmemConfig)
    (ps : PageState) (t : Task) (rest : List Task) (timeout now : Nat)
    (nrToScan : Int)
    (hn : 0 < nrToScan) (hk : t.isKThread = false) (hm : t.memdie = true)
    (ht : timeBeforeEq now timeout = true)
    (_hineligible : t.score < minScoreOf c ps ∨ t.rss ≤ 0) :
    lowmem_shrink c ps (t :: rest) timeout now nrToScan =
      { ret := 0, deathpendingTimeout := timeout, sigkillSentTo := none,
        memdieSetOn := none, compactionRequested := false } := by
  unfold lowmem_shrink
  by_cases hg : minScoreOf c ps = OOM_ADJUST_MAX + 1
  · simp [hg]
  · simp [hg, not_le.mpr hn, lowmemScan, hk, hm, ht]

/-- Witness for C9: a pending-death task with negative score and zero
resident size still aborts the invocation. -/
theorem abort_precedes_score_and_size_filters_witness :
    lowmem_shrink defaultConfig psPressure (taskMemdieIneligible :: [taskA])
        100 90 1 =
      { ret := 0, deathpendingTimeout := 100, sigkillSentTo := none,
        memdieSetOn := none, compactionRequested := false } :=
  abort_precedes_score_and_size_filters defaultConfig psPressure
    taskMemdieIneligible [taskA] 100 90 1
    (by decide) (by decide) (by decide) (by decide) (by decide)

/-- Claim C10: once `now` is strictly past the stored deadline
(`time_before_eq` fails), the pending-death flag no longer disqualifies a
task: a non-kernel-thread pending-death task with score at least
`min_score_adj` and positive resident size is selected and killed again. -/
theorem expired_cooldown_allows_repeat_kill (c : LowmemConfig)
    (ps : PageState) (t : Task) (timeout now : Nat) (nrToScan : Int)
    (hn : 0 < nrToScan) (hg : minScoreOf c ps ≠ OOM_ADJUST_MAX + 1)
    (ht : timeBeforeEq now timeout = false)
    (hk : t.isKThread = false) (hm : t.memdie = true)
    (hs : minScoreOf c ps ≤ t.score) (hr : 0 < t.rss) :
    lowmem_shrink c ps [t] timeout now nrToScan =
      { ret := totalReclaimable ps - t.rss, deathpendingTimeout := now + HZ,
        sigkillSentTo := some t, memdieSetOn := some t,
        compactionRequested := true } := by
  unfold lowmem_shrink
  simp [hg, not_le.mpr hn, lowmemScan, hk, hm, ht, not_lt.mpr hs,
    not_le.mpr hr]

/-- Witness for C10: a pending-death task is killed a second time after
the cooldown expired (deadline 10, now 50). -/
theorem expired_cooldown_allows_repeat_kill_witness :
    lowmem_shrink defaultConfig psPressure [taskMemdieEligible] 10 50 1 =
      { ret := totalReclaimable psPressure - taskMemdieEligible.rss,
        deathpendingTimeout := 50 + HZ,
        sigkillSentTo := some taskMemdieEligible,
        memdieSetOn := some taskMemdieEligible,
        compactionRequested := true } :=
  expired_cooldown_allows_repeat_kill defaultConfig psPressure
    taskMemdieEligible 10 50 1
    (by decide) (by decide) (by decide) (by decide) (by decide) (by decide)
    (by decide)

end Lowmem
